import Mathlib

/-!
Shallow embedding of the netmiko Huawei and HP-Procurve drivers
(src/netmiko/huawei/huawei.py, src/netmiko/hp/hp_procurve.py).

Strings are modelled as `List Char`.  Channel I/O (the external
collaborators `write_channel`, `read_channel`, `read_until_pattern`,
`clear_buffer`) is modelled by scripting the values each read returns and
whether each write succeeds; the functions below mirror the control flow of
the corresponding Python methods on those scripted values.  The concrete
regular expressions appearing in the source are translated into executable
matchers specialised to those exact patterns.
-/

namespace Netmiko

/-- Python whitespace characters recognised by `str.strip()` and by the
regex class `\s` (ASCII range). -/
def pyIsSpace (c : Char) : Bool :=
  c = ' ' || c = '\t' || c = '\n' || c = '\r' || c = Char.ofNat 11 || c = Char.ofNat 12

/-- Does `needle` occur as a prefix of `hay`? -/
def startsWithL : List Char → List Char → Bool
  | [], _ => true
  | _ :: _, [] => false
  | a :: as, b :: bs => a = b && startsWithL as bs

/-- Python substring containment `needle in hay`. -/
def substrB (needle : List Char) : List Char → Bool
  | [] => startsWithL needle []
  | c :: rest => startsWithL needle (c :: rest) || substrB needle rest

/-- Case folding used to model `re.IGNORECASE` searches. -/
def lowerL (l : List Char) : List Char := l.map Char.toLower

/-- Python `str.strip()`: drop leading and trailing whitespace. -/
def pyStrip (l : List Char) : List Char :=
  ((l.dropWhile pyIsSpace).reverse.dropWhile pyIsSpace).reverse

/-- The segment of a string after its last newline: this is
`s.split("\n")[-1]` (`RESPONSE_RETURN` is `"\n"`). -/
def lastLine (l : List Char) : List Char :=
  (l.reverse.takeWhile (fun c => !(decide (c = '\n')))).reverse

/-- One application of `re.sub(r"^HRP_.", "", prompt, flags=re.M)` to a
single-line string (the argument in the source is the stripped last line of
the read, so it contains no newline; at most the one leading occurrence can
match, and `.` requires the fifth character not to be a newline). -/
def stripHRP : List Char → List Char
  | 'H' :: 'R' :: 'P' :: '_' :: c :: rest =>
      if c = '\n' then 'H' :: 'R' :: 'P' :: '_' :: c :: rest else rest
  | l => l

/-- Result of `HuaweiBase.set_base_prompt`: the derived base prompt, the
`ValueError` raised when the prompt lacks a recognised terminator, or the
`IndexError` raised by `prompt[-1]` on an empty string. -/
inductive PromptResult
  | ok (basePrompt : List Char)
  | promptNotFound (prompt : List Char)
  | indexError
  deriving DecidableEq, Repr

/-- `HuaweiBase.set_base_prompt` (huawei.py lines 56-97) applied to the
text returned by the non-blocking read: take the last line, strip it, check
the final character against the two terminators, strip a leading `HRP_.`
high-availability prefix, then strip the leading and trailing terminator
characters and surrounding whitespace. -/
def set_base_prompt (readOut : List Char) (pri alt : Char) : PromptResult :=
  match (pyStrip (lastLine readOut)).getLast? with
  | none => PromptResult.indexError
  | some c =>
    if c = pri ∨ c = alt then
      PromptResult.ok (pyStrip (((stripHRP (pyStrip (lastLine readOut))).drop 1).dropLast))
    else PromptResult.promptNotFound (pyStrip (lastLine readOut))

lemma takeWhileAll (p : Char → Bool) :
    ∀ l : List Char, (∀ a ∈ l, p a = true) → l.takeWhile p = l := by
  intro l h
  induction l with
  | nil => rfl
  | cons c t ih =>
    rw [List.takeWhile_cons]
    rw [h c (List.mem_cons_self c t)]
    simp [ih (fun a ha => h a (List.mem_cons_of_mem c ha))]

lemma lastLine_no_nl (l : List Char) (h : ('\n') ∉ l) : lastLine l = l := by
  unfold lastLine
  have hall : l.reverse.takeWhile (fun c => !(decide (c = '\n'))) = l.reverse := by
    apply takeWhileAll
    intro a ha
    have hm : a ∈ l := List.mem_reverse.mp ha
    simp only [Bool.not_eq_true']
    by_contra hne
    rw [Bool.not_eq_false, decide_eq_true_iff] at hne
    exact h (hne ▸ hm)
  rw [hall, List.reverse_reverse]

lemma pyStrip_cons_concat (a b : Char) (m : List Char)
    (ha : pyIsSpace a = false) (hb : pyIsSpace b = false) :
    pyStrip (a :: (m ++ [b])) = a :: (m ++ [b]) := by
  unfold pyStrip
  rw [List.dropWhile_cons, ha]
  simp only [Bool.false_eq_true, if_false]
  rw [List.reverse_cons, List.reverse_append, List.reverse_cons]
  simp only [List.reverse_nil, List.nil_append, List.singleton_append, List.cons_append]
  rw [List.dropWhile_cons, hb]
  simp [List.reverse_append]

/-- C4 (amended): whenever the stripped last line of the read is non-empty
and its final character lies outside the recognised terminator set
`>`, `#`, `]`, `set_base_prompt` (with the Huawei defaults `>` and `]`)
raises the prompt-not-found ValueError carrying that line. -/
theorem set_base_prompt_rejects_bad_terminator (readOut : List Char) (c : Char)
    (hlast : (pyStrip (lastLine readOut)).getLast? = some c)
    (h1 : c ≠ '>') (h2 : c ≠ '#') (h3 : c ≠ ']') :
    set_base_prompt readOut '>' ']'
      = PromptResult.promptNotFound (pyStrip (lastLine readOut)) := by
  unfold set_base_prompt
  rw [hlast]
  simp [h1, h3]

/-- Witness for the amended C4 theorem at the concrete read `"foo$"`. -/
theorem set_base_prompt_rejects_bad_terminator_witness :
    set_base_prompt (('f') :: ('o') :: ('o') :: ('$') :: []) '>' ']'
      = PromptResult.promptNotFound (('f') :: ('o') :: ('o') :: ('$') :: []) :=
  set_base_prompt_rejects_bad_terminator
    (('f') :: ('o') :: ('o') :: ('$') :: []) '$' (by decide) (by decide) (by decide) (by decide)

/-- C4 counterexample: on an empty read the code evaluates `prompt[-1]` on
the empty string and raises `IndexError`, not the prompt-not-found
`ValueError` the claim describes. -/
theorem set_base_prompt_empty_read_index_error :
    set_base_prompt [] '>' ']' = PromptResult.indexError ∧
      PromptResult.indexError ≠ PromptResult.promptNotFound [] := by
  constructor
  · rfl
  · decide

/-- C7: for every high-availability prompt of the form `HRP_c[host]` (the
literal `HRP_` prefix, one arbitrary role character, then the bracketed
host), `set_base_prompt` derives the base prompt `host`, with the prefix
and the leading and trailing terminator characters stripped. -/
theorem set_base_prompt_strips_hrp (host : List Char) (c : Char) (hc : c ≠ '\n')
    (hn : ('\n') ∉ host) (hs : pyStrip host = host) :
    set_base_prompt ('H' :: 'R' :: 'P' :: '_' :: c :: '[' :: (host ++ [']'])) '>' ']'
      = PromptResult.ok host := by
  have hshape : ('H' : Char) :: 'R' :: 'P' :: '_' :: c :: '[' :: (host ++ [']'])
      = 'H' :: (('R' :: 'P' :: '_' :: c :: '[' :: host) ++ [']']) := by
    simp
  have hnl : ('\n') ∉ ('H' : Char) :: 'R' :: 'P' :: '_' :: c :: '[' :: (host ++ [']']) := by
    intro hmem
    simp only [List.mem_cons, List.mem_append, List.mem_singleton] at hmem
    rcases hmem with h | h | h | h | h | h | h | h
    all_goals first
      | exact absurd h.symm (by decide)
      | exact hc h.symm
      | exact hn h
  have hline := lastLine_no_nl _ hnl
  have hstrip : pyStrip (('H' : Char) :: 'R' :: 'P' :: '_' :: c :: '[' :: (host ++ [']']))
      = 'H' :: 'R' :: 'P' :: '_' :: c :: '[' :: (host ++ [']']) := by
    rw [hshape]
    exact pyStrip_cons_concat 'H' ']' _ (by decide) (by decide)
  unfold set_base_prompt
  rw [hline, hstrip]
  have hlastq : (('H' : Char) :: 'R' :: 'P' :: '_' :: c :: '[' :: (host ++ [']'])).getLast?
      = some ']' := by
    rw [hshape]
    rw [show ('H' : Char) :: (('R' :: 'P' :: '_' :: c :: '[' :: host) ++ [']'])
        = (('H' :: 'R' :: 'P' :: '_' :: c :: '[' :: host) ++ [']']) by simp]
    exact List.getLast?_concat _
  simp only [hlastq, or_true, if_true]
  have hhrp : stripHRP (('H' : Char) :: 'R' :: 'P' :: '_' :: c :: '[' :: (host ++ [']']))
      = '[' :: (host ++ [']']) := by
    simp only [stripHRP]
    rw [if_neg hc]
  rw [hhrp]
  simp only [List.drop_succ_cons, List.drop_zero]
  rw [List.dropLast_concat, hs]

/-- Witness for the C7 theorem at the concrete prompt `HRP_A[sw1]`. -/
theorem set_base_prompt_strips_hrp_witness :
    set_base_prompt
      ('H' :: 'R' :: 'P' :: '_' :: 'A' :: '[' :: ((('s') :: ('w') :: ('1') :: []) ++ [']']))
      '>' ']' = PromptResult.ok (('s') :: ('w') :: ('1') :: []) :=
  set_base_prompt_strips_hrp (('s') :: ('w') :: ('1') :: []) 'A'
    (by decide) (by decide) (by decide)

/-- After `ESC[` and one digit: consume further digits, then require `D`
(the regex fragment `\d+D` continuing a match of `ESC[\d`). -/
def matchDigitsD : List Char → Option (List Char)
  | [] => none
  | c :: rest => if c = 'D' then some rest else if c.isDigit then matchDigitsD rest else none

/-- Matcher for the cursor-left escape sequence `ESC[\d+D`
(`code_cursor_left` in the source) at the head of the list; on success it
returns the remainder after the match. -/
def matchCursorLeftAt : List Char → Option (List Char)
  | '\x1b' :: '[' :: c :: rest => if c.isDigit then matchDigitsD rest else none
  | _ => none

/-- Matcher for the Huawei artifact pattern: a literal space followed by
the cursor-left sequence (the `rf" {code_cursor_left}"` pattern of
huawei.py line 33). -/
def matchSpaceCursorLeftAt : List Char → Option (List Char)
  | [] => none
  | c :: rest => if c = ' ' then matchCursorLeftAt rest else none

/-- A single left-to-right non-overlapping `re.sub(pattern, "", s)` pass
removing cursor-left sequences, with explicit fuel; the wrapper passes the
input length, which bounds the number of scanning steps. -/
def subCursorLeftF : Nat → List Char → List Char
  | 0, l => l
  | _ + 1, [] => []
  | fuel + 1, c :: rest =>
    match matchCursorLeftAt (c :: rest) with
    | some r => subCursorLeftF fuel r
    | none => c :: subCursorLeftF fuel rest

def subCursorLeft (l : List Char) : List Char := subCursorLeftF l.length l

/-- The analogous single pass removing space-plus-cursor-left artifacts. -/
def subSpaceCursorLeftF : Nat → List Char → List Char
  | 0, l => l
  | _ + 1, [] => []
  | fuel + 1, c :: rest =>
    match matchSpaceCursorLeftAt (c :: rest) with
    | some r => subSpaceCursorLeftF fuel r
    | none => c :: subSpaceCursorLeftF fuel rest

def subSpaceCursorLeft (l : List Char) : List Char := subSpaceCursorLeftF l.length l

/-- `HuaweiBase.strip_ansi_escape_codes` (huawei.py lines 24-36): first
remove every occurrence of a space followed by the cursor-left sequence,
then run the generic stripper.  Modelled from the spec: the generic
base-class stripper (`super().strip_ansi_escape_codes`, not under src/) is
the part that removes cursor-left escape sequences on their own, leaving
any preceding space in place. -/
def strip_ansi_escape_codes (l : List Char) : List Char :=
  subCursorLeft (subSpaceCursorLeft l)

/-- Does some position of the list start a cursor-left sequence? -/
def hasCursorLeft : List Char → Bool
  | [] => false
  | c :: rest => (matchCursorLeftAt (c :: rest)).isSome || hasCursorLeft rest

/-- Does some position of the list start a space-plus-cursor-left artifact? -/
def hasSpaceCursorLeft : List Char → Bool
  | [] => false
  | c :: rest => (matchSpaceCursorLeftAt (c :: rest)).isSome || hasSpaceCursorLeft rest

lemma subCursorLeftF_no_match (fuel : Nat) :
    ∀ l : List Char, hasCursorLeft l = false → subCursorLeftF fuel l = l := by
  induction fuel with
  | zero => intro l _; rfl
  | succ n ih =>
    intro l h
    cases l with
    | nil => rfl
    | cons c rest =>
      rw [hasCursorLeft, Bool.or_eq_false_iff] at h
      cases hm : matchCursorLeftAt (c :: rest) with
      | some r => rw [hm] at h; simp at h
      | none =>
        simp only [subCursorLeftF, hm]
        rw [ih rest h.2]

lemma subSpaceCursorLeftF_no_match (fuel : Nat) :
    ∀ l : List Char, hasSpaceCursorLeft l = false → subSpaceCursorLeftF fuel l = l := by
  induction fuel with
  | zero => intro l _; rfl
  | succ n ih =>
    intro l h
    cases l with
    | nil => rfl
    | cons c rest =>
      rw [hasSpaceCursorLeft, Bool.or_eq_false_iff] at h
      cases hm : matchSpaceCursorLeftAt (c :: rest) with
      | some r => rw [hm] at h; simp at h
      | none =>
        simp only [subSpaceCursorLeftF, hm]
        rw [ih rest h.2]

lemma hasSpaceCursorLeft_false_of_hasCursorLeft_false (l : List Char)
    (h : hasCursorLeft l = false) : hasSpaceCursorLeft l = false := by
  induction l with
  | nil => rfl
  | cons c rest ih =>
    rw [hasCursorLeft, Bool.or_eq_false_iff] at h
    rw [hasSpaceCursorLeft, Bool.or_eq_false_iff]
    refine ⟨?_, ih h.2⟩
    rw [matchSpaceCursorLeftAt]
    by_cases hc : c = ' '
    · rw [if_pos hc]
      cases rest with
      | nil => rfl
      | cons d t =>
        rw [hasCursorLeft, Bool.or_eq_false_iff] at ih
        have h2 := h.2
        rw [hasCursorLeft, Bool.or_eq_false_iff] at h2
        exact h2.1
    · rw [if_neg hc]
      rfl

/-- C9 (amended): the combined stripping (Huawei artifact pass, then the
generic cursor-left pass) is idempotent on every input whose once-stripped
result contains no residual cursor-left sequence; removal can concatenate
surrounding fragments into a new cursor-left sequence, so in general a
second application can strip further. -/
theorem strip_ansi_escape_codes_idempotent_when_clean (l : List Char)
    (h : hasCursorLeft (strip_ansi_escape_codes l) = false) :
    strip_ansi_escape_codes (strip_ansi_escape_codes l) = strip_ansi_escape_codes l := by
  have hsp := hasSpaceCursorLeft_false_of_hasCursorLeft_false _ h
  show subCursorLeft (subSpaceCursorLeft (strip_ansi_escape_codes l)) = strip_ansi_escape_codes l
  rw [subSpaceCursorLeft, subSpaceCursorLeftF_no_match _ _ hsp,
     subCursorLeft, subCursorLeftF_no_match _ _ h]

/-- The C9 counterexample input: a space, then the fragments `ESC[1` and
`ESC[2DD`; removing `ESC[2D` concatenates a fresh ` ESC[1D` artifact that
only a second application removes. -/
def c9Input : List Char := [' ', '\x1b', '[', '1', '\x1b', '[', '2', 'D', 'D']

/-- C9 counterexample: on `c9Input` applying the stripping twice does not
equal applying it once (single stripping yields a space followed by
`ESC[1D`; the second application removes that too). -/
theorem strip_ansi_escape_codes_not_idempotent :
    strip_ansi_escape_codes (strip_ansi_escape_codes c9Input)
      ≠ strip_ansi_escape_codes c9Input := by decide

/-- A clean concrete input for the amended C9 theorem. -/
def c9Clean : List Char := [' ', '\x1b', '[', '5', 'D']

/-- Witness for the amended C9 theorem at `c9Clean`. -/
theorem strip_ansi_escape_codes_idempotent_when_clean_witness :
    hasCursorLeft (strip_ansi_escape_codes c9Clean) = false ∧
      strip_ansi_escape_codes (strip_ansi_escape_codes c9Clean)
        = strip_ansi_escape_codes c9Clean :=
  ⟨by decide, strip_ansi_escape_codes_idempotent_when_clean c9Clean (by decide)⟩

lemma substrB_append_left (needle p h : List Char) (hsub : substrB needle h = true) :
    substrB needle (p ++ h) = true := by
  induction p with
  | nil => simpa using hsub
  | cons c t ih =>
    rw [List.cons_append, substrB, ih]
    simp

/-- The literal vendor failure marker scanned for by
`HuaweiVrpv8SSH.commit`. -/
def errorMarker : List Char := ("Failed to generate committed config").data

/-- The prefix of the ValueError message raised on commit failure. -/
def commitFailHeader : List Char := ("Commit failed with following errors:\n\n").data

/-- The full ValueError message: the header followed by the raw combined
output. -/
def commitFailMsg (out : List Char) : List Char := commitFailHeader ++ out

/-- The command string sent by `commit`: `commit`, or
`commit comment "<comment>"` when a comment is supplied. -/
def commitCommandString (comment : List Char) : List Char :=
  if comment.isEmpty then ("commit").data
  else ("commit comment \"").data ++ comment ++ ("\"").data

inductive CommitResult
  | ok (out : List Char)
  | commitFailed (msg : List Char)
  deriving DecidableEq, Repr

structure CommitRun where
  command : List Char
  result : CommitResult
  deriving DecidableEq, Repr

/-- `HuaweiVrpv8SSH.commit` (huawei.py lines 204-245) with the outputs of
`config_mode`, `_send_command_str` and `exit_config_mode` (base-class
channel operations outside src/) scripted as the three inputs whose
concatenation forms the combined output: if the literal failure marker
occurs anywhere in the combined output, raise the ValueError carrying it;
otherwise return the combined output. -/
def commit (comment cfgOut cmdOut exitOut : List Char) : CommitRun :=
  { command := commitCommandString comment
    result :=
      if substrB errorMarker (cfgOut ++ cmdOut ++ exitOut) then
        CommitResult.commitFailed (commitFailMsg (cfgOut ++ cmdOut ++ exitOut))
      else CommitResult.ok (cfgOut ++ cmdOut ++ exitOut) }

/-- C5: whenever the combined output of config-mode entry, the commit
command and config-mode exit contains the literal marker
`Failed to generate committed config`, `commit` fails with the
commit-failed error whose message contains that marker; when the marker is
absent, `commit` returns the combined output. -/
theorem commit_failure_marker (comment cfgOut cmdOut exitOut : List Char) :
    (substrB errorMarker (cfgOut ++ cmdOut ++ exitOut) = true →
      (commit comment cfgOut cmdOut exitOut).result
          = CommitResult.commitFailed (commitFailMsg (cfgOut ++ cmdOut ++ exitOut)) ∧
        substrB errorMarker (commitFailMsg (cfgOut ++ cmdOut ++ exitOut)) = true) ∧
    (substrB errorMarker (cfgOut ++ cmdOut ++ exitOut) = false →
      (commit comment cfgOut cmdOut exitOut).result
        = CommitResult.ok (cfgOut ++ cmdOut ++ exitOut)) := by
  constructor
  · intro hm
    refine ⟨?_, ?_⟩
    · have hm2 := hm
      rw [List.append_assoc] at hm2
      simp [commit, hm2]
    · show substrB errorMarker (commitFailHeader ++ (cfgOut ++ cmdOut ++ exitOut)) = true
      exact substrB_append_left _ _ _ hm
  · intro hm
    have hm2 := hm
    rw [List.append_assoc] at hm2
    simp [commit, hm2]

/-- Witness for the C5 theorem: the failing branch at a combined output
equal to the marker itself, and the succeeding branch at the output `ok`. -/
theorem commit_failure_marker_witness :
    ((commit [] errorMarker [] []).result
        = CommitResult.commitFailed (commitFailMsg (errorMarker ++ [] ++ [])) ∧
      substrB errorMarker (commitFailMsg (errorMarker ++ [] ++ [])) = true) ∧
    (commit [] [] [] (('o') :: ('k') :: [])).result
        = CommitResult.ok ([] ++ [] ++ (('o') :: ('k') :: [])) :=
  ⟨(commit_failure_marker [] errorMarker [] []).1 (by decide),
   (commit_failure_marker [] [] [] (('o') :: ('k') :: [])).2 (by decide)⟩

/-- Matches the regex `\s*$` (no multiline flag) at the head position:
whitespace running to the end of the string, or to a final newline. -/
def wsThenEnd : List Char → Bool
  | [] => true
  | [c] => pyIsSpace c
  | c :: rest => pyIsSpace c && wsThenEnd rest

/-- Search for the regex `[\]>]\s*$` (huawei.py line 115): some position
holds `]` or `>` followed by whitespace running to the end of the string
(or to a final newline). -/
def termThenEndSearch : List Char → Bool
  | [] => false
  | c :: rest =>
    ((decide (c = ']') || decide (c = '>')) && wsThenEnd rest) || termThenEndSearch rest

/-- The combined password-change-or-prompt pattern of
`HuaweiSSH.special_login_handler`:
`((Change now|Please choose))|([\]>]\s*$)`. -/
def passwordChangeOrPromptPat (s : List Char) : Bool :=
  substrB (("Change now").data) s || substrB (("Please choose").data) s || termThenEndSearch s

structure HandlerTrace where
  writes : List (List Char)
  cleared : Bool
  deriving DecidableEq, Repr

/-- `HuaweiSSH.special_login_handler` (huawei.py lines 111-120) applied to
the output returned by the blocking read on the combined pattern: when the
output matches the pattern again, write `N` plus newline and clear the
buffer. -/
def special_login_handler (output : List Char) : HandlerTrace :=
  if passwordChangeOrPromptPat output then { writes := [('N') :: ('\n') :: []], cleared := true }
  else { writes := [], cleared := false }

/-- C10: after the blocking read returns, the handler writes `N` and
clears the buffer whenever the output matches the combined pattern; and
every output ending in an ordinary prompt terminator `]` or `>` matches
the pattern, so the `N` write and buffer clear happen even with no
password-change interstitial present. -/
theorem special_login_handler_sends_N (output pre : List Char) (t : Char) :
    (passwordChangeOrPromptPat output = true →
      special_login_handler output = { writes := [('N') :: ('\n') :: []], cleared := true }) ∧
    (t = ']' ∨ t = '>' →
      special_login_handler (pre ++ [t])
        = { writes := [('N') :: ('\n') :: []], cleared := true }) := by
  constructor
  · intro h
    simp [special_login_handler, h]
  · intro ht
    have hterm : termThenEndSearch (pre ++ [t]) = true := by
      induction pre with
      | nil =>
        rw [List.nil_append, termThenEndSearch]
        rcases ht with h | h <;> subst h <;> rfl
      | cons c rest ih =>
        rw [List.cons_append, termThenEndSearch, ih]
        simp
    have hpat : passwordChangeOrPromptPat (pre ++ [t]) = true := by
      rw [passwordChangeOrPromptPat, hterm]
      simp
    simp [special_login_handler, hpat]

/-- Witness for the C10 theorem: the pattern branch at `>`, and a
terminator-only output `ok>` that still triggers the `N` write. -/
theorem special_login_handler_sends_N_witness :
    special_login_handler (('>') :: [])
        = { writes := [('N') :: ('\n') :: []], cleared := true } ∧
      special_login_handler ((('o') :: ('k') :: []) ++ ['>'])
        = { writes := [('N') :: ('\n') :: []], cleared := true } :=
  ⟨(special_login_handler_sends_N (('>') :: []) [] '>').1 (by decide),
   (special_login_handler_sends_N [] (('o') :: ('k') :: []) '>').2 (Or.inr rfl)⟩

/-- The newline RETURN terminator appended to every channel write. -/
def retNl : List Char := ('\n') :: []

/-- The apostrophe character, used in literal error messages. -/
def apos : Char := Char.ofNat 39

/-- Case-insensitive search for the username re-prompt pattern
`(username|login|user name)` of `HPProcurveBase.enable`. -/
def usernameRePromptMatch (s : List Char) : Bool :=
  substrB (("username").data) (lowerL s) || substrB (("login").data) (lowerL s) ||
    substrB (("user name").data) (lowerL s)

/-- Case-insensitive search for the password prompt pattern `password`. -/
def passwordPromptMatch (s : List Char) : Bool :=
  substrB (("password").data) (lowerL s)

def pwdPatternStr : List Char := ("password").data

def promptPatternStr : List Char := ("[>#]").data

/-- The first combined read pattern of `enable` (hp_procurve.py line 49):
`(username|login|user name|password|[>#])`. -/
def fullPatternInitial : List Char :=
  ("(username|login|user name|").data ++ pwdPatternStr ++ ("|").data
    ++ promptPatternStr ++ (")").data

/-- The pattern rebuilt after the username re-prompt (hp_procurve.py line
61): `rf"{pwd_pattern}|{prompt_pattern})"`, i.e. `password|[>#])` — the
source drops the opening parenthesis. -/
def fullPatternAfterUsername : List Char :=
  pwdPatternStr ++ ("|").data ++ promptPatternStr ++ (")").data

/-- Scanner deciding whether a regex pattern has balanced parentheses
(parentheses inside a character class or escaped by a backslash are
literals); `re.compile` rejects a pattern whose parentheses are
unbalanced. -/
def parenScan : List Char → Nat → Bool → Bool
  | [], depth, inClass => decide (depth = 0) && !inClass
  | '\\' :: rest, depth, inClass =>
    match rest with
    | [] => false
    | _ :: r => parenScan r depth inClass
  | c :: rest, depth, true =>
    if c = ']' then parenScan rest depth false else parenScan rest depth true
  | c :: rest, depth, false =>
    if c = '[' then parenScan rest depth true
    else if c = '(' then parenScan rest (depth + 1) false
    else if c = ')' then
      match depth with
      | 0 => false
      | d + 1 => parenScan rest d false
    else parenScan rest depth false

def regexParensOk (l : List Char) : Bool := parenScan l 0 false

inductive EnableResult
  | ok (out : List Char)
  | enableFailed (msg : List Char)
  deriving DecidableEq, Repr

structure EnableTrace where
  writes : List (List Char)
  readPats : List (List Char)
  result : EnableResult
  deriving DecidableEq, Repr

/-- The ValueError message raised when the post-elevation check still
reports unprivileged mode. -/
def enableFailMsg : List Char :=
  ("Failed to enter enable mode. Please ensure you pass the ").data
    ++ apos :: ("secret").data ++ apos :: (" argument to ConnectHandler.").data

def enableFinish (finalPriv : Bool) (out : List Char) : EnableResult :=
  if finalPriv then EnableResult.ok out else EnableResult.enableFailed enableFailMsg

/-- `HPProcurveBase.enable` (hp_procurve.py lines 32-83).  Modelled from
the spec: `check_enable_mode` (base-class code outside src/) is the pure
query of whether the session is in Privileged mode, supplied as the
booleans `inPriv` (checked on entry) and `finalPriv` (re-checked after the
sequence).  Blocking reads are scripted by `rs`; the trace records the
channel writes and the pattern given to each read in order.  When the
username re-prompt branch is taken, the pattern handed to the second read
is `fullPatternAfterUsername`, which `re.compile` rejects; the model
records the pattern and continues so the remaining control flow stays
visible. -/
def enable (inPriv finalPriv : Bool) (secret : List Char) (rs : Nat → List Char) : EnableTrace :=
  if inPriv then { writes := [], readPats := [], result := EnableResult.ok [] }
  else
    let o1 := rs 0
    if usernameRePromptMatch o1 then
      let o2 := rs 1
      if passwordPromptMatch o2 then
        let o3 := rs 2
        { writes := [("enable").data ++ retNl, ("manager").data ++ retNl, secret ++ retNl]
          readPats := [fullPatternInitial, fullPatternAfterUsername, promptPatternStr]
          result := enableFinish finalPriv (o1 ++ o2 ++ o3) }
      else
        { writes := [("enable").data ++ retNl, ("manager").data ++ retNl]
          readPats := [fullPatternInitial, fullPatternAfterUsername]
          result := enableFinish finalPriv (o1 ++ o2) }
    else if passwordPromptMatch o1 then
      let o2 := rs 1
      { writes := [("enable").data ++ retNl, secret ++ retNl]
        readPats := [fullPatternInitial, promptPatternStr]
        result := enableFinish finalPriv (o1 ++ o2) }
    else
      { writes := [("enable").data ++ retNl]
        readPats := [fullPatternInitial]
        result := enableFinish finalPriv o1 }

/-- C6: when the session is already in privileged mode, `enable` returns
immediately with empty output, performing no channel writes and no reads. -/
theorem enable_noop_when_privileged (finalPriv : Bool) (secret : List Char)
    (rs : Nat → List Char) :
    enable true finalPriv secret rs
      = { writes := [], readPats := [], result := EnableResult.ok [] } := rfl

/-- C3 (code bug): when the first read's output matches the username
re-prompt pattern, `enable` does send the default privileged-account name
`manager`, but the pattern it hands to the next blocking read is
`password|[>#])` — the source drops the opening parenthesis — which has an
unbalanced parenthesis and is not a valid regular expression (whereas the
initial combined pattern is); the next read therefore cannot wait on
password-or-terminator as the claim states. -/
theorem enable_username_reprompt_uses_malformed_pattern
    (finalPriv : Bool) (secret : List Char) (rs : Nat → List Char)
    (h : usernameRePromptMatch (rs 0) = true) :
    (enable false finalPriv secret rs).writes.take 2
        = [("enable").data ++ retNl, ("manager").data ++ retNl] ∧
      (enable false finalPriv secret rs).readPats.take 2
        = [fullPatternInitial, fullPatternAfterUsername] ∧
      regexParensOk fullPatternAfterUsername = false ∧
      regexParensOk fullPatternInitial = true := by
  refine ⟨?_, ?_, by decide, by decide⟩ <;>
    by_cases hp : passwordPromptMatch (rs 1) = true <;>
      simp [enable, h, hp]

/-- Witness for the C3 theorem at a read that answers `Username: `. -/
theorem enable_username_reprompt_uses_malformed_pattern_witness :
    (enable false true [] (fun _ => ("Username: ").data)).writes.take 2
        = [("enable").data ++ retNl, ("manager").data ++ retNl] ∧
      (enable false true [] (fun _ => ("Username: ").data)).readPats.take 2
        = [fullPatternInitial, fullPatternAfterUsername] ∧
      regexParensOk fullPatternAfterUsername = false ∧
      regexParensOk fullPatternInitial = true :=
  enable_username_reprompt_uses_malformed_pattern true [] (fun _ => ("Username: ").data)
    (by decide)

inductive ChanRead
  | ok (s : List Char)
  | err
  deriving DecidableEq, Repr

structure CleanupOutcome where
  raised : Bool
  finCount : Nat
  writes : List (List Char)
  deriving DecidableEq, Repr

/-- The logout confirmation prompt literal checked by `cleanup`. -/
def logoutConfirmLit : List Char := ("Do you want to log out").data

/-- The save-configuration confirmation prompt literal checked by
`cleanup`. -/
def saveConfirmLit : List Char := ("Do you want to save the current").data

/-- The teardown loop of `HPProcurveBase.cleanup` (hp_procurve.py lines
98-120), `while count <= 10`, with the channel scripted: `reads` gives the
result of each `read_channel` call (`err` models a raised `socket.error`)
and `writeOk` whether each successive `write_channel` call succeeds.
`raised` records a socket error escaping `cleanup`; `finCount` counts how
often `_session_log_fin = True` ran (once, after the loop, on every
non-raising path); `writes` lists the successful channel writes.  The `y`
and `n` confirmation writes sit outside any try/except, so their failure
raises; only a failure of the nudge-newline write is caught and breaks the
loop. -/
def cleanupLoop (reads : Nat → ChanRead) (writeOk : Nat → Bool) :
    Nat → Nat → Nat → List (List Char) → CleanupOutcome
  | 0, _, _, ws => { raised := false, finCount := 1, writes := ws }
  | fuel + 1, rIdx, wIdx, ws =>
    match reads rIdx with
    | ChanRead.err => { raised := false, finCount := 1, writes := ws }
    | ChanRead.ok s =>
      if substrB logoutConfirmLit s then
        if writeOk wIdx then
          cleanupLoop reads writeOk fuel (rIdx + 1) (wIdx + 1) (ws ++ [('y') :: ('\n') :: []])
        else { raised := true, finCount := 0, writes := ws }
      else if substrB saveConfirmLit s then
        if writeOk wIdx then
          cleanupLoop reads writeOk fuel (rIdx + 1) (wIdx + 1) (ws ++ [('n') :: ('\n') :: []])
        else { raised := true, finCount := 0, writes := ws }
      else
        if writeOk wIdx then
          cleanupLoop reads writeOk fuel (rIdx + 1) (wIdx + 1) (ws ++ [('\n') :: []])
        else { raised := false, finCount := 1, writes := ws }

/-- `HPProcurveBase.cleanup` (hp_procurve.py lines 85-123) from the
logout-command write onward (the config-mode exit block above it is
wrapped in a bare `except Exception: pass`, so it cannot affect the
outcome and its channel traffic is scripted out).  The initial command
write is also outside any try/except, so its failure raises. -/
def cleanup (reads : Nat → ChanRead) (writeOk : Nat → Bool) : CleanupOutcome :=
  if writeOk 0 then cleanupLoop reads writeOk 11 0 1 [("logout").data ++ retNl]
  else { raised := true, finCount := 0, writes := [] }

lemma cleanupLoop_shape (reads : Nat → ChanRead) (writeOk : Nat → Bool) :
    ∀ fuel rIdx wIdx ws,
      ((cleanupLoop reads writeOk fuel rIdx wIdx ws).raised = false ∧
        (cleanupLoop reads writeOk fuel rIdx wIdx ws).finCount = 1) ∨
      ((cleanupLoop reads writeOk fuel rIdx wIdx ws).raised = true ∧
        (cleanupLoop reads writeOk fuel rIdx wIdx ws).finCount = 0 ∧
        ∃ n, writeOk n = false) := by
  intro fuel
  induction fuel with
  | zero => intro rIdx wIdx ws; left; exact ⟨rfl, rfl⟩
  | succ m ih =>
    intro rIdx wIdx ws
    cases hr : reads rIdx with
    | err => left; exact ⟨by simp [cleanupLoop, hr], by simp [cleanupLoop, hr]⟩
    | ok s =>
      simp only [cleanupLoop, hr]
      split
      · split
        · exact ih _ _ _
        · rename_i hw
          right
          exact ⟨rfl, rfl, _, by simpa using hw⟩
      · split
        · split
          · exact ih _ _ _
          · rename_i hw
            right
            exact ⟨rfl, rfl, _, by simpa using hw⟩
        · split
          · exact ih _ _ _
          · left; exact ⟨rfl, rfl⟩

/-- C2 (amended): a `socket.error` raised by a channel read at any loop
iteration, or by the nudge-newline send, stops the loop within that
iteration without propagating, and the session-finalized flag is set
exactly once on every run that returns; but a transport error while
sending the `y`/`n` confirmation answers (or the initial logout-command
send) propagates to the caller, in which case the flag is never set. -/
theorem cleanup_teardown_error_handling (reads : Nat → ChanRead) (writeOk : Nat → Bool) :
    ((∀ n, writeOk n = true) →
      (cleanup reads writeOk).raised = false ∧ (cleanup reads writeOk).finCount = 1) ∧
    ((cleanup reads writeOk).raised = false → (cleanup reads writeOk).finCount = 1) ∧
    ((cleanup reads writeOk).raised = true →
      (cleanup reads writeOk).finCount = 0 ∧ ∃ n, writeOk n = false) ∧
    (∀ fuel rIdx wIdx ws, reads rIdx = ChanRead.err →
      cleanupLoop reads writeOk (fuel + 1) rIdx wIdx ws
        = { raised := false, finCount := 1, writes := ws }) := by
  refine ⟨?_, ?_, ?_, ?_⟩
  · intro hall
    rw [cleanup, if_pos (hall 0)]
    rcases cleanupLoop_shape reads writeOk 11 0 1 [("logout").data ++ retNl] with
      ⟨h1, h2⟩ | ⟨_, _, n, hn⟩
    · exact ⟨h1, h2⟩
    · rw [hall n] at hn; cases hn
  · intro h
    by_cases hw0 : writeOk 0 = true
    · rw [cleanup, if_pos hw0] at h ⊢
      rcases cleanupLoop_shape reads writeOk 11 0 1 [("logout").data ++ retNl] with
        ⟨_, h2⟩ | ⟨h1, _, _⟩
      · exact h2
      · rw [h1] at h; cases h
    · rw [Bool.not_eq_true] at hw0
      rw [cleanup] at h
      rw [hw0] at h
      simp at h
  · intro h
    by_cases hw0 : writeOk 0 = true
    · rw [cleanup, if_pos hw0] at h ⊢
      rcases cleanupLoop_shape reads writeOk 11 0 1 [("logout").data ++ retNl] with
        ⟨h1, _⟩ | ⟨_, h2, hex⟩
      · rw [h1] at h; cases h
      · exact ⟨h2, hex⟩
    · rw [Bool.not_eq_true] at hw0
      rw [cleanup] at h ⊢
      rw [hw0]
      exact ⟨rfl, 0, hw0⟩
  · intro fuel rIdx wIdx ws h
    simp [cleanupLoop, h]

/-- The C2 counterexample transport: the first read returns the logout
confirmation prompt, the initial logout write succeeds, and the `y`
confirmation write fails with a socket error. -/
def c2Reads : Nat → ChanRead :=
  fun n => if n = 0 then ChanRead.ok logoutConfirmLit else ChanRead.err

def c2WriteOk : Nat → Bool := fun n => decide (n = 0)

/-- C2 counterexample: with the single read returning the logout
confirmation prompt and the following `y` confirmation write failing with
a socket error, `cleanup` propagates the error and the session-finalized
flag is never set — contradicting the claim that a transport error on any
loop send is swallowed and the flag is always set exactly once. -/
theorem cleanup_confirmation_write_error_propagates :
    (cleanup c2Reads c2WriteOk).raised = true ∧
      (cleanup c2Reads c2WriteOk).finCount = 0 := by
  decide

/-- An error-free transport for the C2 witness. -/
def c2AllOkReads : Nat → ChanRead := fun _ => ChanRead.ok []

def c2AllOkWrites : Nat → Bool := fun _ => true

/-- Witness for the amended C2 theorem: each conjunct applied at a
concrete transport. -/
theorem cleanup_teardown_error_handling_witness :
    ((cleanup c2AllOkReads c2AllOkWrites).raised = false ∧
      (cleanup c2AllOkReads c2AllOkWrites).finCount = 1) ∧
    (cleanup c2AllOkReads c2AllOkWrites).finCount = 1 ∧
    ((cleanup c2Reads c2WriteOk).finCount = 0 ∧ ∃ n, c2WriteOk n = false) ∧
    cleanupLoop c2Reads c2AllOkWrites 3 1 0 []
        = { raised := false, finCount := 1, writes := [] } :=
  ⟨(cleanup_teardown_error_handling c2AllOkReads c2AllOkWrites).1 (fun _ => rfl),
   (cleanup_teardown_error_handling c2AllOkReads c2AllOkWrites).2.1 (by decide),
   (cleanup_teardown_error_handling c2Reads c2WriteOk).2.2.1 (by decide),
   (cleanup_teardown_error_handling c2Reads c2AllOkWrites).2.2.2 2 1 0 [] rfl⟩

/-- C8 counterexample input: a read containing both the logout and the
save confirmation prompts. -/
def c8BothPrompts : List Char := logoutConfirmLit ++ saveConfirmLit

def c8Reads : Nat → ChanRead :=
  fun n => if n = 0 then ChanRead.ok c8BothPrompts else ChanRead.err

def c8WriteOk : Nat → Bool := fun _ => true

/-- C8 counterexample: in a loop iteration whose read output contains the
save-confirmation prompt together with the logout prompt, the `if/elif`
ordering answers `y`, not `n`: the affirmative answer is written in an
iteration whose output contains the save prompt, and no `n` answer is
written at all. -/
theorem cleanup_save_prompt_answered_affirmatively :
    substrB saveConfirmLit c8BothPrompts = true ∧
      (cleanup c8Reads c8WriteOk).writes
          = [("logout").data ++ retNl, ('y') :: ('\n') :: []] ∧
      ((cleanup c8Reads c8WriteOk).writes.contains (('n') :: ('\n') :: [])) = false := by
  decide

lemma cleanupLoop_y_write (reads : Nat → ChanRead) (writeOk : Nat → Bool) :
    ∀ fuel rIdx wIdx ws,
      ('y') :: ('\n') :: [] ∈ (cleanupLoop reads writeOk fuel rIdx wIdx ws).writes →
      ('y') :: ('\n') :: [] ∈ ws ∨
        ∃ n s, reads n = ChanRead.ok s ∧ substrB logoutConfirmLit s = true := by
  intro fuel
  induction fuel with
  | zero => intro rIdx wIdx ws h; left; exact h
  | succ m ih =>
    intro rIdx wIdx ws h
    cases hr : reads rIdx with
    | err =>
      simp only [cleanupLoop, hr] at h
      left; exact h
    | ok s =>
      simp only [cleanupLoop, hr] at h
      split at h
      · rename_i hlog
        split at h
        · rcases ih _ _ _ h with hmem | hex
          · rcases List.mem_append.mp hmem with hmem2 | hmem2
            · left; exact hmem2
            · right; exact ⟨rIdx, s, hr, hlog⟩
          · right; exact hex
        · left; exact h
      · split at h
        · split at h
          · rcases ih _ _ _ h with hmem | hex
            · rcases List.mem_append.mp hmem with hmem2 | hmem2
              · left; exact hmem2
              · rw [List.mem_singleton] at hmem2
                cases hmem2
            · right; exact hex
          · left; exact h
        · split at h
          · rcases ih _ _ _ h with hmem | hex
            · rcases List.mem_append.mp hmem with hmem2 | hmem2
              · left; exact hmem2
              · rw [List.mem_singleton] at hmem2
                cases hmem2
            · right; exact hex
          · left; exact h

/-- C8 (amended): in every loop iteration whose read output contains the
save-confirmation prompt and not the logout prompt, the response written
is `n` followed by the line terminator; the affirmative `y` answer is only
ever written in an iteration whose read output contains the logout
confirmation prompt (which takes precedence when both prompts appear in
one read). -/
theorem cleanup_save_prompt_negative (reads : Nat → ChanRead) (writeOk : Nat → Bool) :
    (∀ fuel rIdx wIdx ws s, reads rIdx = ChanRead.ok s →
      substrB logoutConfirmLit s = false → substrB saveConfirmLit s = true →
      writeOk wIdx = true →
      cleanupLoop reads writeOk (fuel + 1) rIdx wIdx ws
        = cleanupLoop reads writeOk fuel (rIdx + 1) (wIdx + 1)
            (ws ++ [('n') :: ('\n') :: []])) ∧
    (('y') :: ('\n') :: [] ∈ (cleanup reads writeOk).writes →
      ∃ n s, reads n = ChanRead.ok s ∧ substrB logoutConfirmLit s = true) := by
  constructor
  · intro fuel rIdx wIdx ws s hr hlog hsave hw
    simp [cleanupLoop, hr, hlog, hsave, hw]
  · intro h
    by_cases hw0 : writeOk 0 = true
    · rw [cleanup, if_pos hw0] at h
      rcases cleanupLoop_y_write reads writeOk 11 0 1 _ h with hmem | hex
      · rw [List.mem_singleton] at hmem
        cases hmem
      · exact hex
    · rw [Bool.not_eq_true] at hw0
      rw [cleanup] at h
      rw [hw0] at h
      simp at h

/-- A save-prompt-only transport for the C8 witness. -/
def c8SaveReads : Nat → ChanRead :=
  fun n => if n = 0 then ChanRead.ok saveConfirmLit else ChanRead.err

/-- Witness for the amended C8 theorem: the save-only iteration writes the
negative answer, and a run whose writes contain `y` indeed read a
logout prompt. -/
theorem cleanup_save_prompt_negative_witness :
    cleanupLoop c8SaveReads c8WriteOk 3 0 1 []
        = cleanupLoop c8SaveReads c8WriteOk 2 1 2 ([] ++ [('n') :: ('\n') :: []]) ∧
      ∃ n s, c2Reads n = ChanRead.ok s ∧ substrB logoutConfirmLit s = true :=
  ⟨(cleanup_save_prompt_negative c8SaveReads c8WriteOk).1 2 0 1 [] saveConfirmLit rfl
      (by decide) (by decide) rfl,
   (cleanup_save_prompt_negative c2Reads c8WriteOk).2 (by decide)⟩

/-- Matches the multiline regex fragment `\s*$` at the head position (`$`
with `re.M` matches at the end of the string or before any newline). -/
def wsLineEndM : List Char → Bool
  | [] => true
  | c :: rest => decide (c = '\n') || (pyIsSpace c && wsLineEndM rest)

/-- Multiline search for `t\s*$`: some position holds `t` followed by
whitespace running to a line end. -/
def termSearchM (t : Char) : List Char → Bool
  | [] => false
  | c :: rest => (decide (c = t) && wsLineEndM rest) || termSearchM t rest

/-- `re.search` of the prompt terminator patterns `]\s*$` or `>\s*$` with
`flags=re.M`, as checked by `HuaweiTelnet.telnet_login`. -/
def hasTermM (s : List Char) : Bool := termSearchM ']' s || termSearchM '>' s

/-- Strip `lit` from the head of the list when it is a prefix there. -/
def stripLit : List Char → List Char → Option (List Char)
  | [], s => some s
  | _ :: _, [] => none
  | a :: as, b :: bs => if a = b then stripLit as bs else none

/-- Does `lit` followed by at least one non-newline character (the regex
`lit.+` without DOTALL) match at the head position? -/
def litDotMatchAt (lit s : List Char) : Bool :=
  match stripLit lit s with
  | some (c :: _) => decide (c ≠ '\n')
  | _ => false

/-- Search for `lit.+` at any position. -/
def litDotSearch (lit : List Char) : List Char → Bool
  | [] => false
  | c :: rest => litDotMatchAt lit (c :: rest) || litDotSearch lit rest

/-- The password-change interstitial literal `Change now`. -/
def pcLitChange : List Char := ("Change now").data

/-- The password-change interstitial literal: `Please choose` followed by
quoted `YES` or `NO` alternatives (the apostrophes are built explicitly). -/
def pcLitChoose : List Char :=
  ("Please choose ").data ++ apos :: ("YES").data ++ apos :: (" or ").data
    ++ apos :: ("NO").data ++ [apos]

/-- `re.search` of the telnet password-change pattern
`(Change now|Please choose 'YES' or 'NO').+`. -/
def pwChangeMatch (s : List Char) : Bool :=
  litDotSearch pcLitChange s || litDotSearch pcLitChoose s

inductive ReadEvent
  | ok (s : List Char)
  | eof
  deriving DecidableEq, Repr

inductive LoginResult
  | success (transcript : List Char)
  | failure (closedFirst : Bool) (msg : List Char)
  deriving DecidableEq, Repr

/-- The `NetmikoAuthenticationException` message `Login failed: {host}`
(the braces in the source f-string denote interpolation of the host). -/
def loginFailMsg (host : List Char) : List Char := ("Login failed: ").data ++ host

/-- The retry loop of `HuaweiTelnet.telnet_login` (huawei.py lines
126-200).  `script k` is the result of the k-th blocking
`read_until_pattern` call (`eof` models a raised `EOFError`); `finalOut`
is what the final non-blocking `read_channel` probe returns; `fuel` is the
number of remaining loop iterations (`max_loops`), `k` the index of the
next blocking read and `acc` the accumulated `return_msg` transcript.
Each iteration reads for the username pattern and writes the username,
reads for the password pattern and writes the password, reads for the
combined pattern, answers a password-change interstitial with `N` and
re-reads the combined pattern, then returns the transcript if a prompt
terminator matched the latest output; an `EOFError` on any blocking read
closes the transport (`closedFirst`) and fails with the authentication
message.  When the bound is exhausted, a newline probe is sent and the
non-blocking read is checked the same way; otherwise the transport is
closed and the same failure raised. -/
def telnetLoginGo (host : List Char) (script : Nat → ReadEvent) (finalOut : List Char) :
    Nat → Nat → List Char → LoginResult
  | 0, _, acc =>
    if hasTermM finalOut then LoginResult.success (acc ++ finalOut)
    else LoginResult.failure true (loginFailMsg host)
  | fuel + 1, k, acc =>
    match script k with
    | ReadEvent.eof => LoginResult.failure true (loginFailMsg host)
    | ReadEvent.ok o1 =>
      match script (k + 1) with
      | ReadEvent.eof => LoginResult.failure true (loginFailMsg host)
      | ReadEvent.ok o2 =>
        match script (k + 2) with
        | ReadEvent.eof => LoginResult.failure true (loginFailMsg host)
        | ReadEvent.ok o3 =>
          if pwChangeMatch o3 then
            match script (k + 3) with
            | ReadEvent.eof => LoginResult.failure true (loginFailMsg host)
            | ReadEvent.ok o4 =>
              if hasTermM o4 then LoginResult.success (acc ++ o1 ++ o2 ++ o3 ++ o4)
              else telnetLoginGo host script finalOut fuel (k + 4) (acc ++ o1 ++ o2 ++ o3 ++ o4)
          else
            if hasTermM o3 then LoginResult.success (acc ++ o1 ++ o2 ++ o3)
            else telnetLoginGo host script finalOut fuel (k + 3) (acc ++ o1 ++ o2 ++ o3)

/-- `HuaweiTelnet.telnet_login` entry point (`max_loops` defaults to 20 in
the source and is a parameter here). -/
def telnet_login (host : List Char) (script : Nat → ReadEvent) (finalOut : List Char)
    (maxLoops : Nat) : LoginResult :=
  telnetLoginGo host script finalOut maxLoops 0 []

lemma telnetLoginGo_failure_shape (host : List Char) (script : Nat → ReadEvent)
    (finalOut : List Char) :
    ∀ fuel k acc b m,
      telnetLoginGo host script finalOut fuel k acc = LoginResult.failure b m →
      b = true ∧ m = loginFailMsg host := by
  intro fuel
  induction fuel with
  | zero =>
    intro k acc b m h
    simp only [telnetLoginGo] at h
    split at h
    · exact LoginResult.noConfusion h
    · injection h with hb hm
      exact ⟨hb.symm, hm.symm⟩
  | succ n ih =>
    intro k acc b m h
    cases h1 : script k with
    | eof =>
      simp only [telnetLoginGo, h1] at h
      injection h with hb hm
      exact ⟨hb.symm, hm.symm⟩
    | ok o1 =>
      cases h2 : script (k + 1) with
      | eof =>
        simp only [telnetLoginGo, h1, h2] at h
        injection h with hb hm
        exact ⟨hb.symm, hm.symm⟩
      | ok o2 =>
        cases h3 : script (k + 2) with
        | eof =>
          simp only [telnetLoginGo, h1, h2, h3] at h
          injection h with hb hm
          exact ⟨hb.symm, hm.symm⟩
        | ok o3 =>
          simp only [telnetLoginGo, h1, h2, h3] at h
          split at h
          · cases h4 : script (k + 3) with
            | eof =>
              simp only [h4] at h
              injection h with hb hm
              exact ⟨hb.symm, hm.symm⟩
            | ok o4 =>
              simp only [h4] at h
              split at h
              · exact LoginResult.noConfusion h
              · exact ih _ _ _ _ h
          · split at h
            · exact LoginResult.noConfusion h
            · exact ih _ _ _ _ h

lemma telnetLoginGo_eof_fails (host : List Char) (script : Nat → ReadEvent)
    (finalOut : List Char) (fuel k : Nat) (acc : List Char)
    (h : script k = ReadEvent.eof) :
    telnetLoginGo host script finalOut (fuel + 1) k acc
      = LoginResult.failure true (loginFailMsg host) := by
  simp only [telnetLoginGo, h]

lemma telnetLoginGo_no_term_fails (host : List Char) (script : Nat → ReadEvent)
    (finalOut : List Char)
    (hok : ∀ n s, script n = ReadEvent.ok s → hasTermM s = false)
    (hne : ∀ n, script n ≠ ReadEvent.eof)
    (hf : hasTermM finalOut = false) :
    ∀ fuel k acc, telnetLoginGo host script finalOut fuel k acc
      = LoginResult.failure true (loginFailMsg host) := by
  intro fuel
  induction fuel with
  | zero => intro k acc; simp [telnetLoginGo, hf]
  | succ n ih =>
    intro k acc
    cases h1 : script k with
    | eof => exact absurd h1 (hne k)
    | ok o1 =>
      cases h2 : script (k + 1) with
      | eof => exact absurd h2 (hne _)
      | ok o2 =>
        cases h3 : script (k + 2) with
        | eof => exact absurd h3 (hne _)
        | ok o3 =>
          simp only [telnetLoginGo, h1, h2, h3]
          by_cases hpc : pwChangeMatch o3 = true
          · rw [if_pos hpc]
            cases h4 : script (k + 3) with
            | eof => exact absurd h4 (hne _)
            | ok o4 =>
              simp only [h4, hok _ _ h4, Bool.false_eq_true, if_false]
              exact ih _ _
          · rw [if_neg hpc]
            simp only [hok _ _ h3, Bool.false_eq_true, if_false]
            exact ih _ _

lemma telnetLoginGo_success_term (host : List Char) (script : Nat → ReadEvent)
    (finalOut : List Char) :
    ∀ fuel k acc t,
      telnetLoginGo host script finalOut fuel k acc = LoginResult.success t →
      (∃ n s, script n = ReadEvent.ok s ∧ hasTermM s = true) ∨ hasTermM finalOut = true := by
  intro fuel
  induction fuel with
  | zero =>
    intro k acc t h
    simp only [telnetLoginGo] at h
    split at h
    · right; assumption
    · exact LoginResult.noConfusion h
  | succ n ih =>
    intro k acc t h
    cases h1 : script k with
    | eof =>
      simp only [telnetLoginGo, h1] at h
      exact LoginResult.noConfusion h
    | ok o1 =>
      cases h2 : script (k + 1) with
      | eof =>
        simp only [telnetLoginGo, h1, h2] at h
        exact LoginResult.noConfusion h
      | ok o2 =>
        cases h3 : script (k + 2) with
        | eof =>
          simp only [telnetLoginGo, h1, h2, h3] at h
          exact LoginResult.noConfusion h
        | ok o3 =>
          simp only [telnetLoginGo, h1, h2, h3] at h
          split at h
          · cases h4 : script (k + 3) with
            | eof =>
              simp only [h4] at h
              exact LoginResult.noConfusion h
            | ok o4 =>
              simp only [h4] at h
              split at h
              · rename_i hterm
                left
                exact ⟨k + 3, o4, h4, hterm⟩
              · exact ih _ _ _ h
          · split at h
            · rename_i hterm
              left
              exact ⟨k + 2, o3, h3, hterm⟩
            · exact ih _ _ _ h

/-- C1: a Telnet login run raises `AuthenticationFailed` carrying the host
exactly in the cases the claim lists: every failure result is the
close-then-raise carrying `Login failed: host`; an `EOFError` on the
pending blocking read produces it immediately; when no blocking read ever
shows a prompt terminator, none raises `EOFError`, and the final
non-blocking probe shows no terminator either, the run produces it after
the retry bound; and every successful run returned the accumulated
transcript because a terminator appeared in some blocking read's output or
in the final probe. -/
theorem telnet_login_auth_failure (host : List Char) (script : Nat → ReadEvent)
    (finalOut : List Char) (maxLoops : Nat) :
    (∀ b m, telnet_login host script finalOut maxLoops = LoginResult.failure b m →
      b = true ∧ m = loginFailMsg host) ∧
    (0 < maxLoops → script 0 = ReadEvent.eof →
      telnet_login host script finalOut maxLoops
        = LoginResult.failure true (loginFailMsg host)) ∧
    ((∀ n s, script n = ReadEvent.ok s → hasTermM s = false) →
      (∀ n, script n ≠ ReadEvent.eof) → hasTermM finalOut = false →
      telnet_login host script finalOut maxLoops
        = LoginResult.failure true (loginFailMsg host)) ∧
    (∀ t, telnet_login host script finalOut maxLoops = LoginResult.success t →
      (∃ n s, script n = ReadEvent.ok s ∧ hasTermM s = true) ∨
        hasTermM finalOut = true) := by
  refine ⟨?_, ?_, ?_, ?_⟩
  · intro b m h
    exact telnetLoginGo_failure_shape host script finalOut maxLoops 0 [] b m h
  · intro hpos heof
    cases maxLoops with
    | zero => exact absurd hpos (by omega)
    | succ n => exact telnetLoginGo_eof_fails host script finalOut n 0 [] heof
  · intro hok hne hf
    exact telnetLoginGo_no_term_fails host script finalOut hok hne hf maxLoops 0 []
  · intro t h
    exact telnetLoginGo_success_term host script finalOut maxLoops 0 [] t h

/-- A transport that always raises `EOFError`. -/
def c1EofScript : Nat → ReadEvent := fun _ => ReadEvent.eof

/-- A transport that never shows a terminator and never closes. -/
def c1NoTermScript : Nat → ReadEvent := fun _ => ReadEvent.ok (('x') :: [])

/-- A transport that always shows the `]` terminator. -/
def c1TermScript : Nat → ReadEvent := fun _ => ReadEvent.ok ((']') :: [])

/-- Witness for the C1 theorem: each conjunct applied at a concrete
transport with its hypotheses discharged. -/
theorem telnet_login_auth_failure_witness :
    telnet_login (('h') :: []) c1EofScript [] 3
        = LoginResult.failure true (loginFailMsg (('h') :: [])) ∧
      telnet_login (('h') :: []) c1NoTermScript (('x') :: []) 2
        = LoginResult.failure true (loginFailMsg (('h') :: [])) ∧
      ((∃ n s, c1TermScript n = ReadEvent.ok s ∧ hasTermM s = true) ∨
        hasTermM (('x') :: []) = true) ∧
      (true = true ∧ loginFailMsg (('h') :: []) = loginFailMsg (('h') :: [])) :=
  ⟨(telnet_login_auth_failure (('h') :: []) c1EofScript [] 3).2.1 (by omega) rfl,
   (telnet_login_auth_failure (('h') :: []) c1NoTermScript (('x') :: []) 2).2.2.1
      (fun n s hs => by injection hs with h; rw [← h]; decide)
      (fun n hs => ReadEvent.noConfusion hs)
      (by decide),
   (telnet_login_auth_failure (('h') :: []) c1TermScript (('x') :: []) 1).2.2.2
      ((']') :: (']') :: (']') :: []) (by decide),
   (telnet_login_auth_failure (('h') :: []) c1EofScript [] 3).1 true
      (loginFailMsg (('h') :: []))
      ((telnet_login_auth_failure (('h') :: []) c1EofScript [] 3).2.1 (by omega) rfl)⟩

end Netmiko
